import Mathlib

/-!
Verification of the weight-based memory lifecycle engine of the
neuromorphic-cognitive-architecture repository.

The engine lives in `src/BiomimeticMemoryManager.js` (class
`BiomimeticMemoryManager`): `storeMemory`, `retrieveMemory`,
`searchMemories`, `performConsolidation`, `getMemoryStatistics` and their
private helpers (`_calculateImportance`, `_calculateRecencyScore`,
`_isRecent`, `_calculateWeightDistribution`, `_deduplicateMemories`).
A second, in-process engine lives in `src/src/neuromorphic-mcp-server.js`
(class `NeuromorphicBrain`): `calculateMemoryWeight`,
`storeEpisodicMemory`.

Numbers are modelled as exact rationals (`ℚ`) and timestamps as integer
milliseconds (`ℤ`).  JavaScript `x || d` defaulting is modelled explicitly
(a supplied `0` or `""` falls back to the default, a missing field does
too); an absent field is `none`.

The six per-region backends of `BiomimeticMemoryManager` are declared in
the source only as placeholders ("to be implemented"): `_distributeMemory`,
`_searchHippocampus` .. `_searchCerebellum`, `_updateMemoryAcrossRegions`.
Where a property needs them they are modelled from the spec's StoreAdapter
contract (each such definition says so in its doc comment); everything
else is translated from the JavaScript source directly.
-/

/-- A memory record as built by `BiomimeticMemoryManager.storeMemory`
(src/BiomimeticMemoryManager.js lines 156-168).  The `metadata` payload is
an opaque object no modelled operation reads; it is omitted here. -/
structure MemoryRecord where
  id : String
  content : String
  type : String
  weight : ℚ
  created : ℤ
  lastAccessed : ℤ
  accessCount : ℕ
  emotionalWeight : ℚ
  semanticWeight : ℚ
  tags : List String
deriving Repr, DecidableEq

/-- The `memory` section of the manager's configuration
(src/BiomimeticMemoryManager.js lines 61-69), with the source's defaults.
The misspelling `subconsccious` is the source's. -/
structure MemoryConfig where
  consciousThreshold : ℚ := 8/10
  easyRecallThreshold : ℚ := 6/10
  effortThreshold : ℚ := 3/10
  subconscciousThreshold : ℚ := 1/10
  dormantThreshold : ℚ := 1/100
  decayRate : ℚ := 1/1000
  consolidationStrength : ℚ := 1/10
deriving Repr, DecidableEq

/-- JavaScript numeric defaulting `x || d`: `undefined` (here `none`) and
the falsy number `0` both yield the default. -/
def jsOrNum (v : Option ℚ) (d : ℚ) : ℚ :=
  match v with
  | none => d
  | some x => if x = 0 then d else x

/-- JavaScript string defaulting `s || d`: `undefined` and the falsy empty
string both yield the default. -/
def jsOrStr (v : Option String) (d : String) : String :=
  match v with
  | none => d
  | some s => if s = "" then d else s

/-- The caller-supplied `memoryData` argument of `storeMemory`. -/
structure MemoryData where
  content : String
  type : Option String := none
  initialWeight : Option ℚ := none
  emotionalWeight : Option ℚ := none
  semanticWeight : Option ℚ := none
  tags : Option (List String) := none
deriving Repr, DecidableEq

/-- `BiomimeticMemoryManager.storeMemory` record construction
(src/BiomimeticMemoryManager.js lines 156-168): the new record's weight is
`memoryData.initialWeight || 1.0`, its type `memoryData.type || 'general'`,
its emotional and semantic weights default to `0.5` by the same falsy
coercion, `tags` to `[]` (an array is always truthy, so only a missing
`tags` is replaced).  `newId` stands for `_generateMemoryId()` and `now`
for `new Date()`. -/
def storeMemory (newId : String) (now : ℤ) (d : MemoryData) : MemoryRecord :=
  { id := newId
    content := d.content
    type := jsOrStr d.type "general"
    weight := jsOrNum d.initialWeight 1
    created := now
    lastAccessed := now
    accessCount := 0
    emotionalWeight := jsOrNum d.emotionalWeight (1/2)
    semanticWeight := jsOrNum d.semanticWeight (1/2)
    tags := d.tags.getD [] }

/-- `NeuromorphicBrain.calculateMemoryWeight`
(src/src/neuromorphic-mcp-server.js lines 72-79):
`min(1.0, baseWeight + importance*0.3 + emotional*0.1)` with
`baseWeight = 0.6`. -/
def calculateMemoryWeight (importance emotional : ℚ) : ℚ :=
  min 1 (6/10 + importance * (3/10) + emotional * (1/10))

/-- An episodic memory as built by `NeuromorphicBrain.storeEpisodicMemory`
(src/src/neuromorphic-mcp-server.js lines 82-98). -/
structure EpisodicMemory where
  id : String
  event : String
  context : String
  weight : ℚ
  timestamp : ℤ
  accessCount : ℕ
deriving Repr, DecidableEq

/-- `NeuromorphicBrain.storeEpisodicMemory`: the stored weight is
`calculateMemoryWeight(event, importance)` — the call passes no third
argument, so `emotional` takes its declared default `0.5`. -/
def storeEpisodicMemory (newId : String) (ts : ℤ) (event context : String)
    (importance : ℚ) : EpisodicMemory :=
  { id := newId
    event := event
    context := context
    weight := calculateMemoryWeight importance (1/2)
    timestamp := ts
    accessCount := 0 }

/-- `_isRecent(memory, milliseconds)`
(src/BiomimeticMemoryManager.js lines 641-645):
`(now - lastAccessed) < milliseconds`. -/
def _isRecent (now : ℤ) (m : MemoryRecord) (ms : ℤ) : Bool :=
  now - m.lastAccessed < ms

/-- `_calculateRecencyScore` (src/BiomimeticMemoryManager.js lines
630-639): `max(0, 1 - min(daysSinceCreated, daysSinceAccessed)/30)` with
days measured as fractional milliseconds over `24*60*60*1000`. -/
def _calculateRecencyScore (now : ℤ) (m : MemoryRecord) : ℚ :=
  let daysSinceCreated : ℚ := ((now : ℚ) - (m.created : ℚ)) / 86400000
  let daysSinceAccessed : ℚ := ((now : ℚ) - (m.lastAccessed : ℚ)) / 86400000
  max 0 (1 - min daysSinceCreated daysSinceAccessed / 30)

/-- `_calculateImportance` (src/BiomimeticMemoryManager.js lines 616-628):
recency, frequency (`accessCount/100`), emotional and semantic scores
combined with the fixed `importanceFactors`
`{recency: 0.3, frequency: 0.25, emotional: 0.25, semantic: 0.2}`.
The source's `memory.emotionalWeight || 0` is the identity on a numeric
field (`0 || 0 = 0`), so the fields are used directly. -/
def _calculateImportance (now : ℤ) (m : MemoryRecord) : ℚ :=
  _calculateRecencyScore now m * (3/10) +
    ((m.accessCount : ℚ) / 100) * (1/4) +
    m.emotionalWeight * (1/4) +
    m.semanticWeight * (1/5)

/-- The reinforcement-learning update of `retrieveMemory`
(src/BiomimeticMemoryManager.js lines 226-229): on a hit the record gets
`lastAccessed = new Date()`, `accessCount++`, and
`weight = Math.min(1.0, weight + 0.01)`. -/
def reinforceRecord (now : ℤ) (m : MemoryRecord) : MemoryRecord :=
  { m with
    lastAccessed := now
    accessCount := m.accessCount + 1
    weight := min 1 (m.weight + 1/100) }

/-- Modelled from the spec: the per-region `readById` of the StoreAdapter
contract (§4.2).  The source's `_searchHippocampus(id)` ..
`_searchCerebellum(id)` are placeholders returning `null`; the spec says a
region answers a read-by-id with the record it holds under that id, or
absent. -/
def regionReadById (region : List MemoryRecord) (id : String) :
    Option MemoryRecord :=
  region.find? (fun m => m.id == id)

/-- The read fan-out of `retrieveMemory`
(src/BiomimeticMemoryManager.js lines 202-213): all regions are asked in a
fixed order and `searchResults.find(result => result !== null)` takes the
first non-absent answer. -/
def _findMemory (regions : List (List MemoryRecord)) (id : String) :
    Option MemoryRecord :=
  (regions.map (fun r => regionReadById r id)).findSome? (fun x => x)

/-- Modelled from the spec: `_updateMemoryAcrossRegions` is a placeholder
in the source; the spec (§4.4 reconciliation write-back) says the updated
fields are written back to every region holding the record, each region
replacing by id. -/
def _updateMemoryAcrossRegions (regions : List (List MemoryRecord))
    (m : MemoryRecord) : List (List MemoryRecord) :=
  regions.map (fun r => r.map (fun x => if x.id = m.id then m else x))

/-- `retrieveMemory` (src/BiomimeticMemoryManager.js lines 196-243): first
non-absent region answer; on a miss `null` and no mutation; on a hit the
reinforcement update followed by the cross-region write-back, returning
the updated record.  The `accessDelay` sleep between read and update is
latency only and does not change the state. -/
def retrieveMemory (regions : List (List MemoryRecord)) (id : String)
    (now : ℤ) : Option MemoryRecord × List (List MemoryRecord) :=
  match _findMemory regions id with
  | none => (none, regions)
  | some m =>
      let updated := reinforceRecord now m
      (some updated, _updateMemoryAcrossRegions regions updated)

/-- Modelled from the spec: `_distributeMemory` is a placeholder in the
source; the spec (§4.3 default router policy) writes every new record to
all regions. -/
def _distributeMemory (m : MemoryRecord)
    (regions : List (List MemoryRecord)) : List (List MemoryRecord) :=
  regions.map (fun r => r ++ [m])

/-- The six brain regions of the manager, all initially empty. -/
def sixEmptyRegions : List (List MemoryRecord) :=
  [[], [], [], [], [], []]

/-- `_deduplicateMemories` (src/BiomimeticMemoryManager.js line 729): the
source returns its input unchanged — it is a declared placeholder that
performs no deduplication. -/
def _deduplicateMemories (memories : List MemoryRecord) :
    List MemoryRecord :=
  memories

/-- The caller-supplied `options` of `searchMemories`.  `none` is an
absent key. -/
structure SearchOptions where
  maxResults : Option ℕ := none
  minWeight : Option ℚ := none
  sortBy : Option String := none
deriving Repr, DecidableEq

/-- The sort comparator of `searchMemories`
(src/BiomimeticMemoryManager.js lines 282-293), phrased as "a may come
before b": the switch sorts descending by `weight` (also the `default`
case), by `lastAccessed` for `'recent'`, by `accessCount` for
`'frequency'`. -/
def sortComparatorGe (sortBy : String) (a b : MemoryRecord) : Bool :=
  if sortBy = "weight" then decide (b.weight ≤ a.weight)
  else if sortBy = "recent" then decide (b.lastAccessed ≤ a.lastAccessed)
  else if sortBy = "frequency" then decide (b.accessCount ≤ a.accessCount)
  else decide (b.weight ≤ a.weight)

/-- Stable insertion of `a` in front of the first element it may precede:
the semantics of JavaScript's stable `Array.prototype.sort` for a total
comparator, where an earlier element stays in front of equal elements. -/
def insertGe {α : Type} (ge : α → α → Bool) (a : α) :
    List α → List α
  | [] => [a]
  | b :: l => if ge a b then a :: b :: l else b :: insertGe ge a l

/-- Stable sort by repeated insertion; for a total transitive comparator
this is exactly the stable sorted order `Array.prototype.sort` produces. -/
def sortGe {α : Type} (ge : α → α → Bool) : List α → List α
  | [] => []
  | a :: l => insertGe ge a (sortGe ge l)

/-- `searchMemories` (src/BiomimeticMemoryManager.js lines 249-299),
parametrised by the per-region content-search answers (the six
`_search*Content` placeholders).  The trailing `...options` spread in the
source re-applies every key the caller supplied over the falsy-coerced
defaults, so a supplied key — even a falsy one — wins: an absent key
(`none`) gets the default, a present key is used as given.  The pipeline
is: flatten, drop nulls, `_deduplicateMemories` (identity), filter by
`minWeight`, stable-sort by the selected comparator, `slice(0, maxResults)`. -/
def searchMemories (cfg : MemoryConfig) (options : SearchOptions)
    (regionResults : List (List MemoryRecord)) : List MemoryRecord :=
  let maxResults := options.maxResults.getD 20
  let minWeight := options.minWeight.getD cfg.subconscciousThreshold
  let sortBy := options.sortBy.getD "weight"
  let allResults := regionResults.flatten
  let uniqueResults := _deduplicateMemories allResults
  (sortGe (sortComparatorGe sortBy)
      (uniqueResults.filter (fun m => decide (minWeight ≤ m.weight)))).take
    maxResults

/-- The per-record consolidation rule of `performConsolidation`
(src/BiomimeticMemoryManager.js lines 326-342): for `'sws'`, records with
importance above `0.7` accessed within 24 hours gain
`consolidationStrength` capped at `1.0`; for `'rem'`, records with
importance above `0.5` gain half of it. -/
def applyConsolidationRule (cfg : MemoryConfig) (ty : String) (now : ℤ)
    (m : MemoryRecord) : MemoryRecord :=
  if ty = "sws" then
    if 7/10 < _calculateImportance now m ∧ _isRecent now m 86400000 then
      { m with weight := min 1 (m.weight + cfg.consolidationStrength) }
    else m
  else if ty = "rem" then
    if 1/2 < _calculateImportance now m then
      { m with weight := min 1 (m.weight + cfg.consolidationStrength * (1/2)) }
    else m
  else m

/-- The decay step of `performConsolidation`
(src/BiomimeticMemoryManager.js lines 344-347): a record not accessed
within 7 days (`7*24*60*60*1000` ms) loses `decayRate`, floored at `0.0`;
a recently accessed record is untouched. -/
def applyDecay (cfg : MemoryConfig) (now : ℤ) (m : MemoryRecord) :
    MemoryRecord :=
  if ¬ _isRecent now m 604800000 then
    { m with weight := max 0 (m.weight - cfg.decayRate) }
  else m

/-- One record's pass through `performConsolidation`: the type-specific
rule, then decay, applied to the same mutable record in source order. -/
def consolidateRecord (cfg : MemoryConfig) (ty : String) (now : ℤ)
    (m : MemoryRecord) : MemoryRecord :=
  applyDecay cfg now (applyConsolidationRule cfg ty now m)

/-- The weight-distribution summary returned by
`_calculateWeightDistribution`; the empty-population branch of the source
returns an object without the `total` key, modelled by `none`. -/
structure WeightDistribution where
  average : ℚ
  conscious : ℕ
  accessible : ℕ
  dormant : ℕ
  total : Option ℕ
deriving Repr, DecidableEq

/-- `_calculateWeightDistribution`
(src/BiomimeticMemoryManager.js lines 681-704): an empty population short
circuits to all-zero statistics; otherwise the average is the weight sum
over the count, and the tier counts use the configured thresholds. -/
def _calculateWeightDistribution (cfg : MemoryConfig)
    (memories : List MemoryRecord) : WeightDistribution :=
  if memories.length = 0 then
    { average := 0, conscious := 0, accessible := 0, dormant := 0,
      total := none }
  else
    { average := (memories.map (fun m => m.weight)).sum / memories.length
      conscious :=
        (memories.filter (fun m =>
          decide (cfg.consciousThreshold ≤ m.weight))).length
      accessible :=
        (memories.filter (fun m =>
          decide (cfg.effortThreshold ≤ m.weight))).length
      dormant :=
        (memories.filter (fun m =>
          decide (m.weight < cfg.subconscciousThreshold))).length
      total := some memories.length }

/-- The `averageWeight` field of `getMemoryStatistics`
(src/BiomimeticMemoryManager.js line 410): it is the distribution's
average. -/
def averageWeightStat (cfg : MemoryConfig)
    (memories : List MemoryRecord) : ℚ :=
  (_calculateWeightDistribution cfg memories).average

/-- A concrete record used to instantiate the theorems below. -/
def mkSample (id : String) (w : ℚ) (created lastAccessed : ℤ)
    (ac : ℕ) (ew sw : ℚ) : MemoryRecord :=
  { id := id, content := "c", type := "general", weight := w,
    created := created, lastAccessed := lastAccessed, accessCount := ac,
    emotionalWeight := ew, semanticWeight := sw, tags := [] }

theorem mem_insertGe {α : Type} (ge : α → α → Bool) (a x : α)
    (l : List α) : x ∈ insertGe ge a l ↔ x = a ∨ x ∈ l := by
  induction l with
  | nil => simp [insertGe]
  | cons b t ih =>
    by_cases h : ge a b
    · simp [insertGe, h]
    · simp [insertGe, h, ih]
      tauto

theorem mem_sortGe {α : Type} (ge : α → α → Bool) (l : List α) (x : α) :
    x ∈ sortGe ge l ↔ x ∈ l := by
  induction l with
  | nil => simp [sortGe]
  | cons b t ih => simp [sortGe, mem_insertGe, ih]

theorem pairwise_insertGe {α : Type} (ge : α → α → Bool)
    (htot : ∀ a b, ge a b = true ∨ ge b a = true)
    (htrans : ∀ a b c, ge a b = true → ge b c = true → ge a c = true)
    (a : α) (l : List α) (hl : l.Pairwise (fun x y => ge x y = true)) :
    (insertGe ge a l).Pairwise (fun x y => ge x y = true) := by
  induction l with
  | nil => simp [insertGe]
  | cons b t ih =>
    rw [List.pairwise_cons] at hl
    obtain ⟨hb, ht⟩ := hl
    by_cases h : ge a b = true
    · rw [insertGe, if_pos h, List.pairwise_cons]
      refine ⟨?_, List.pairwise_cons.mpr ⟨hb, ht⟩⟩
      intro y hy
      rcases List.mem_cons.mp hy with hy | hy
      · exact hy ▸ h
      · exact htrans a b y h (hb y hy)
    · have hba : ge b a = true := (htot a b).resolve_left h
      rw [insertGe, if_neg h, List.pairwise_cons]
      refine ⟨?_, ih ht⟩
      intro y hy
      rcases (mem_insertGe ge a y t).mp hy with hy | hy
      · exact hy ▸ hba
      · exact hb y hy

theorem pairwise_sortGe {α : Type} (ge : α → α → Bool)
    (htot : ∀ a b, ge a b = true ∨ ge b a = true)
    (htrans : ∀ a b c, ge a b = true → ge b c = true → ge a c = true)
    (l : List α) :
    (sortGe ge l).Pairwise (fun x y => ge x y = true) := by
  induction l with
  | nil => simp [sortGe]
  | cons b t ih => exact pairwise_insertGe ge htot htrans b _ ih

theorem sortComparatorGe_total (s : String) (a b : MemoryRecord) :
    sortComparatorGe s a b = true ∨ sortComparatorGe s b a = true := by
  unfold sortComparatorGe
  split_ifs <;> simp [decide_eq_true_eq] <;> exact le_total _ _

theorem sortComparatorGe_trans (s : String) (a b c : MemoryRecord)
    (hab : sortComparatorGe s a b = true)
    (hbc : sortComparatorGe s b c = true) :
    sortComparatorGe s a c = true := by
  unfold sortComparatorGe at hab hbc ⊢
  split_ifs at hab hbc ⊢ <;>
    simp only [decide_eq_true_eq] at hab hbc ⊢ <;>
    exact le_trans hbc hab

/-- Bounds of a capped weight boost `min(1, w + s)` for `0 ≤ w`, `0 ≤ s`. -/
theorem boost_bounds (w s : ℚ) (h0 : 0 ≤ w) (hs : 0 ≤ s) :
    0 ≤ min 1 (w + s) ∧ min 1 (w + s) ≤ 1 :=
  ⟨le_min (by norm_num) (by linarith), min_le_left _ _⟩

/-- C1 counterexample: the spec's store scenario
`store("hello", kind="general", importance=0.8, emotional=0.5)` run
through `BiomimeticMemoryManager.storeMemory` (which has no importance
parameter and applies no weight formula) creates a record of weight `1.0`,
not `0.89`: the weight is `memoryData.initialWeight || 1.0`. -/
theorem storeMemory_scenario_weight_one :
    (storeMemory "m1" 0
        { content := "hello", type := some "general",
          emotionalWeight := some (1/2) }).weight = 1 ∧
      ¬ (storeMemory "m1" 0
          { content := "hello", type := some "general",
            emotionalWeight := some (1/2) }).weight = 89/100 := by
  constructor
  · rfl
  · norm_num [storeMemory, jsOrNum]

/-- C1 (amended): the weight formula
`min(1.0, 0.6 + 0.3*importance + 0.1*emotional)` is implemented by
`NeuromorphicBrain.calculateMemoryWeight`; for parameters in `[0,1]` its
value lies in `[0.6, 1]`, the episodic store path (which passes
`emotional` as its default `0.5`) records weight `0.89` at importance
`0.8`, but `BiomimeticMemoryManager.storeMemory` does not apply the
formula and the scenario store creates weight `1.0`. -/
theorem calculateMemoryWeight_formula (i e : ℚ) (hi0 : 0 ≤ i)
    (hi1 : i ≤ 1) (he0 : 0 ≤ e) (he1 : e ≤ 1) :
    6/10 ≤ calculateMemoryWeight i e ∧ calculateMemoryWeight i e ≤ 1 ∧
    (storeEpisodicMemory "e1" 0 "hello" "ctx" (4/5)).weight = 89/100 ∧
    (storeMemory "m1" 0
        { content := "hello", type := some "general",
          emotionalWeight := some (1/2) }).weight = 1 := by
  refine ⟨?_, ?_, ?_, rfl⟩
  · unfold calculateMemoryWeight
    exact le_min (by norm_num) (by nlinarith)
  · exact min_le_left _ _
  · norm_num [storeEpisodicMemory, calculateMemoryWeight, min_def]

/-- C1 witness: the amended theorem instantiated at importance `0.8`,
emotional `0.5`. -/
theorem calculateMemoryWeight_formula_witness :
    (0 ≤ (4/5 : ℚ) ∧ (4/5 : ℚ) ≤ 1 ∧ 0 ≤ (1/2 : ℚ) ∧ (1/2 : ℚ) ≤ 1) ∧
      6/10 ≤ calculateMemoryWeight (4/5) (1/2) ∧
      calculateMemoryWeight (4/5) (1/2) ≤ 1 ∧
      (storeEpisodicMemory "e1" 0 "hello" "ctx" (4/5)).weight = 89/100 ∧
      (storeMemory "m1" 0
          { content := "hello", type := some "general",
            emotionalWeight := some (1/2) }).weight = 1 :=
  ⟨⟨by norm_num, by norm_num, by norm_num, by norm_num⟩,
    calculateMemoryWeight_formula (4/5) (1/2) (by norm_num) (by norm_num)
      (by norm_num) (by norm_num)⟩

/-- C2 counterexample: `storeMemory` performs no range validation, so a
caller-supplied `initialWeight` of `5` creates a record whose weight is
`5`, outside `[0, 1]`. -/
theorem storeMemory_accepts_out_of_range_weight :
    (storeMemory "m1" 0 { content := "x", initialWeight := some 5 }).weight
        = 5 ∧
      ¬ (storeMemory "m1" 0
          { content := "x", initialWeight := some 5 }).weight ≤ 1 := by
  constructor
  · rfl
  · norm_num [storeMemory, jsOrNum]

/-- C2 (amended): when the caller-supplied `initialWeight` is absent or in
`[0, 1]`, every weight-mutating step keeps weights in `[0, 1]`: the
retrieval reinforcement, the consolidation rule followed by decay (for
non-negative `decayRate` and `consolidationStrength`), and the store
itself; `searchMemories` mutates nothing — all its output records come
from its region inputs. -/
theorem weight_invariant_for_in_range_inputs (cfg : MemoryConfig)
    (hd : 0 ≤ cfg.decayRate) (hs : 0 ≤ cfg.consolidationStrength)
    (m : MemoryRecord) (now : ℤ) (ty : String)
    (hlo : 0 ≤ m.weight) (hhi : m.weight ≤ 1) :
    (0 ≤ (reinforceRecord now m).weight ∧
        (reinforceRecord now m).weight ≤ 1) ∧
    (0 ≤ (consolidateRecord cfg ty now m).weight ∧
        (consolidateRecord cfg ty now m).weight ≤ 1) ∧
    (∀ d : MemoryData, ∀ newId : String, ∀ t : ℤ,
        (∀ w, d.initialWeight = some w → 0 ≤ w ∧ w ≤ 1) →
        0 ≤ (storeMemory newId t d).weight ∧
          (storeMemory newId t d).weight ≤ 1) ∧
    (∀ opts : SearchOptions, ∀ results : List (List MemoryRecord),
        ∀ x ∈ searchMemories cfg opts results, x ∈ results.flatten) := by
  refine ⟨?_, ?_, ?_, ?_⟩
  · exact ⟨le_min (by norm_num) (by linarith), min_le_left _ _⟩
  · have hrule : 0 ≤ (applyConsolidationRule cfg ty now m).weight ∧
        (applyConsolidationRule cfg ty now m).weight ≤ 1 := by
      unfold applyConsolidationRule
      split_ifs <;>
        first
          | exact ⟨hlo, hhi⟩
          | exact boost_bounds _ _ hlo hs
          | exact boost_bounds _ _ hlo (by linarith)
    unfold consolidateRecord applyDecay
    split_ifs
    · exact hrule
    · constructor
      · exact le_max_left _ _
      · exact max_le (by norm_num) (by linarith [hrule.2])
  · intro d newId t hw
    rcases hdw : d.initialWeight with _ | w
    · simp [storeMemory, jsOrNum, hdw]
    · by_cases hw0 : w = 0
      · simp [storeMemory, jsOrNum, hdw, hw0]
      · have hb := hw w hdw
        simpa [storeMemory, jsOrNum, hdw, hw0] using hb
  · intro opts results x hx
    simp only [searchMemories] at hx
    have hx2 := List.take_subset _ _ hx
    rw [mem_sortGe] at hx2
    have hx3 := List.mem_filter.mp hx2
    simpa [_deduplicateMemories] using hx3.1

/-- C2 witness: the amended invariant at the default configuration and an
in-range record. -/
theorem weight_invariant_for_in_range_inputs_witness :
    (0 ≤ ({} : MemoryConfig).decayRate ∧
        0 ≤ ({} : MemoryConfig).consolidationStrength ∧
        0 ≤ (mkSample "w" (1/2) 0 0 0 (1/2) (1/2)).weight ∧
        (mkSample "w" (1/2) 0 0 0 (1/2) (1/2)).weight ≤ 1) ∧
      0 ≤ (reinforceRecord 5 (mkSample "w" (1/2) 0 0 0 (1/2) (1/2))).weight ∧
      (reinforceRecord 5 (mkSample "w" (1/2) 0 0 0 (1/2) (1/2))).weight ≤ 1 :=
  ⟨⟨by norm_num, by norm_num, by norm_num [mkSample], by norm_num [mkSample]⟩,
    (weight_invariant_for_in_range_inputs {} (by norm_num) (by norm_num)
        (mkSample "w" (1/2) 0 0 0 (1/2) (1/2)) 5 "sws"
        (by norm_num [mkSample]) (by norm_num [mkSample])).1⟩

/-- The spec's round-trip input: a stored record of weight `0.5`. -/
def roundTripData : MemoryData :=
  { content := "hello", type := some "general", initialWeight := some (1/2) }

/-- C3 counterexample: a record stored with weight `0.5`, retrieved for
the first time, is returned with weight `0.51`, not the initial weight
`0.5` — the retrieval reinforcement runs before the record is returned. -/
theorem store_retrieve_weight_not_initial :
    ((retrieveMemory
          (_distributeMemory (storeMemory "m1" 0 roundTripData)
            sixEmptyRegions) "m1" 100).1.map (fun r => r.weight))
        = some (51/100) ∧
      ¬ ((51 : ℚ)/100 = 1/2) := by
  constructor
  · have hfind : _findMemory
        (_distributeMemory (storeMemory "m1" 0 roundTripData)
          sixEmptyRegions) "m1" = some (storeMemory "m1" 0 roundTripData) :=
      rfl
    simp only [retrieveMemory, hfind]
    norm_num [reinforceRecord, storeMemory, jsOrNum, roundTripData, min_def]
  · norm_num

/-- C3 (amended): storing a record into empty regions and retrieving it by
id returns a non-absent record with the content, kind and tags given at
store time, access count `1`, and weight `min(1, w0 + 0.01)` where `w0` is
the weight computed at creation — the initial weight plus exactly one
reinforcement.  Region reads and the write fan-out are modelled from the
spec's StoreAdapter contract, as the source leaves them as placeholders. -/
theorem store_retrieve_roundtrip (d : MemoryData) (newId : String)
    (t1 t2 : ℤ) :
    (retrieveMemory
          (_distributeMemory (storeMemory newId t1 d) sixEmptyRegions)
          newId t2).1
        = some (reinforceRecord t2 (storeMemory newId t1 d)) ∧
      (reinforceRecord t2 (storeMemory newId t1 d)).content = d.content ∧
      (reinforceRecord t2 (storeMemory newId t1 d)).type
        = jsOrStr d.type "general" ∧
      (reinforceRecord t2 (storeMemory newId t1 d)).tags = d.tags.getD [] ∧
      (reinforceRecord t2 (storeMemory newId t1 d)).accessCount = 1 ∧
      (reinforceRecord t2 (storeMemory newId t1 d)).weight
        = min 1 (jsOrNum d.initialWeight 1 + 1/100) := by
  refine ⟨?_, rfl, rfl, rfl, rfl, rfl⟩
  have hfind : _findMemory
      (_distributeMemory (storeMemory newId t1 d) sixEmptyRegions) newId
      = some (storeMemory newId t1 d) := by
    simp [_findMemory, _distributeMemory, sixEmptyRegions, regionReadById,
      List.find?, storeMemory]
  simp [retrieveMemory, hfind]

/-- C4: whenever the read fan-out finds a record, `retrieveMemory` returns
it with weight `min(1, w + 0.01)`, access count incremented, and the
current time as `lastAccessedAt`, and every copy of the record in the
resulting regions carries exactly these updated fields. -/
theorem retrieveMemory_reinforces_and_writes_back
    (regions : List (List MemoryRecord)) (id : String) (now : ℤ)
    (m : MemoryRecord) (h : _findMemory regions id = some m) :
    (retrieveMemory regions id now).1 = some (reinforceRecord now m) ∧
      (reinforceRecord now m).weight = min 1 (m.weight + 1/100) ∧
      (reinforceRecord now m).accessCount = m.accessCount + 1 ∧
      (reinforceRecord now m).lastAccessed = now ∧
      ∀ r ∈ (retrieveMemory regions id now).2, ∀ x ∈ r,
        x.id = m.id → x = reinforceRecord now m := by
  refine ⟨?_, rfl, rfl, rfl, ?_⟩
  · simp [retrieveMemory, h]
  · intro r hr x hx hxid
    simp only [retrieveMemory, h, _updateMemoryAcrossRegions,
      List.mem_map] at hr
    obtain ⟨r0, _, rfl⟩ := hr
    rw [List.mem_map] at hx
    obtain ⟨y, _, rfl⟩ := hx
    by_cases hyid : y.id = (reinforceRecord now m).id
    · simp [hyid]
    · rw [if_neg hyid] at hxid ⊢
      exact absurd hxid (by simpa [reinforceRecord] using hyid)

/-- C4 witness: the reinforcement theorem at a single region holding one
record. -/
theorem retrieveMemory_reinforces_witness :
    _findMemory [[mkSample "m1" (1/2) 0 0 3 (1/2) (1/2)]] "m1"
        = some (mkSample "m1" (1/2) 0 0 3 (1/2) (1/2)) ∧
      (retrieveMemory [[mkSample "m1" (1/2) 0 0 3 (1/2) (1/2)]] "m1" 50).1
        = some (reinforceRecord 50 (mkSample "m1" (1/2) 0 0 3 (1/2) (1/2))) :=
  ⟨rfl,
    (retrieveMemory_reinforces_and_writes_back
        [[mkSample "m1" (1/2) 0 0 3 (1/2) (1/2)]] "m1" 50
        (mkSample "m1" (1/2) 0 0 3 (1/2) (1/2)) rfl).1⟩

/-- A record returned identically by several regions. -/
def dupRecord : MemoryRecord := mkSample "s1" (1/2) 0 0 0 (1/2) (1/2)

/-- C5: the dedup step of `searchMemories` is the placeholder
`_deduplicateMemories`, which returns its input unchanged, so a record
returned by three regions appears three times in the search output — the
"Merge and deduplicate results" comment and the spec's dedup-by-id are not
implemented. -/
theorem searchMemories_returns_duplicates :
    (searchMemories {} {} [[dupRecord], [dupRecord], [dupRecord]]).map
        (fun m => m.id) = ["s1", "s1", "s1"] := by
  norm_num [searchMemories, _deduplicateMemories, sortGe, insertGe,
    sortComparatorGe, dupRecord, mkSample, List.filter]

/-- Two records tied on every sort key, in regions ordered so that id
`"b"` is concatenated before id `"a"`. -/
def tieB : MemoryRecord := mkSample "b" (1/2) 0 0 0 (1/2) (1/2)

/-- The tied record with the smaller id, contributed by the later region. -/
def tieA : MemoryRecord := mkSample "a" (1/2) 0 0 0 (1/2) (1/2)

/-- C6 counterexample: two records of equal weight arrive as `"b"` then
`"a"`; the search output keeps that order, so ties are not broken by id
ascending (which would give `"a"` before `"b"`). -/
theorem searchMemories_tie_keeps_input_order :
    (searchMemories {} {} [[tieB], [tieA]]).map (fun m => m.id)
        = ["b", "a"] ∧
      (["b", "a"] : List String) ≠ ["a", "b"] := by
  constructor
  · norm_num [searchMemories, _deduplicateMemories, sortGe, insertGe,
      sortComparatorGe, tieB, tieA, mkSample, List.filter]
  · decide

/-- C6 (amended): the search output is sorted descending by the
caller-selected key (weight by default or for `'weight'`, last-access time
for `'recent'`, access count for `'frequency'`), has at most `maxResults`
entries, and contains only input records meeting the weight threshold;
ties keep the records' first-occurrence order in the concatenated region
results (the sort is stable), with no id tiebreak. -/
theorem searchMemories_sorted_filtered_limited (cfg : MemoryConfig)
    (opts : SearchOptions) (results : List (List MemoryRecord)) :
    (searchMemories cfg opts results).Pairwise
        (fun a b => sortComparatorGe (opts.sortBy.getD "weight") a b = true) ∧
      (searchMemories cfg opts results).length ≤ opts.maxResults.getD 20 ∧
      ∀ x ∈ searchMemories cfg opts results,
        x ∈ results.flatten ∧
          opts.minWeight.getD cfg.subconscciousThreshold ≤ x.weight := by
  refine ⟨?_, ?_, ?_⟩
  · have hp := pairwise_sortGe (sortComparatorGe (opts.sortBy.getD "weight"))
      (sortComparatorGe_total _) (sortComparatorGe_trans _)
      ((_deduplicateMemories results.flatten).filter
        (fun m =>
          decide (opts.minWeight.getD cfg.subconscciousThreshold ≤ m.weight)))
    exact List.Pairwise.sublist (List.take_sublist _ _) hp
  · simp only [searchMemories]
    exact le_trans (le_of_eq (List.length_take _ _)) (min_le_left _ _)
  · intro x hx
    simp only [searchMemories] at hx
    have hx2 := List.take_subset _ _ hx
    rw [mem_sortGe] at hx2
    have hx3 := List.mem_filter.mp hx2
    refine ⟨by simpa [_deduplicateMemories] using hx3.1, ?_⟩
    simpa [decide_eq_true_eq] using hx3.2

/-- C7: in one slow-wave (`'sws'`) pass, a record whose computed
importance exceeds `0.7` and that was accessed within the last 24 hours
(`86400000` ms, hence also within the 7-day decay window, so decay cannot
fire) ends with weight `min(1, w + consolidationStrength)`; any record
failing the condition leaves the reinforcement branch with its weight
unchanged. -/
theorem sws_consolidation_reinforcement (cfg : MemoryConfig) (now : ℤ)
    (m : MemoryRecord) :
    (7/10 < _calculateImportance now m → _isRecent now m 86400000 = true →
        (consolidateRecord cfg "sws" now m).weight
          = min 1 (m.weight + cfg.consolidationStrength)) ∧
      (¬ (7/10 < _calculateImportance now m ∧
            _isRecent now m 86400000 = true) →
        (applyConsolidationRule cfg "sws" now m).weight = m.weight) := by
  constructor
  · intro himp hrec
    have hrec7 : _isRecent now m 604800000 = true := by
      unfold _isRecent at hrec ⊢
      simp only [decide_eq_true_eq] at hrec ⊢
      omega
    unfold consolidateRecord applyConsolidationRule
    rw [if_pos rfl, if_pos ⟨himp, hrec⟩]
    unfold applyDecay
    rw [if_neg (not_not_intro (by simpa [_isRecent] using hrec7))]
  · intro hneg
    unfold applyConsolidationRule
    rw [if_pos rfl, if_neg hneg]

/-- A record matching the spec's consolidation scenario: weight `0.6`,
created and last accessed 2 hours before `now = 7200000`, maximal
emotional and semantic weights, so its importance is `899/1200 ≈ 0.749`. -/
def swsSample : MemoryRecord := mkSample "w" (3/5) 0 0 0 1 1

/-- C7 witness: the theorem at the scenario record two hours after its
last access: importance exceeds `0.7`, and the pass ends at weight
`0.7 = 0.6 + 0.1`. -/
theorem sws_consolidation_reinforcement_witness :
    (7/10 < _calculateImportance 7200000 swsSample ∧
        _isRecent 7200000 swsSample 86400000 = true) ∧
      (consolidateRecord {} "sws" 7200000 swsSample).weight = 7/10 := by
  have himp : (7 : ℚ)/10 < _calculateImportance 7200000 swsSample := by
    norm_num [_calculateImportance, _calculateRecencyScore, swsSample,
      mkSample, min_def, max_def]
  have hrec : _isRecent 7200000 swsSample 86400000 = true := by
    norm_num [_isRecent, swsSample, mkSample]
  refine ⟨⟨himp, hrec⟩, ?_⟩
  have h := (sws_consolidation_reinforcement {} 7200000 swsSample).1 himp hrec
  rw [h]
  norm_num [swsSample, mkSample, min_def]

/-- C8: the decay step of any consolidation pass reduces the weight of a
record not accessed within the last 7 days (`604800000` ms) by `decayRate`
floored at `0`, never producing a negative weight, and leaves a record
accessed within that window untouched. -/
theorem decay_floor_and_window (cfg : MemoryConfig) (now : ℤ)
    (m : MemoryRecord) :
    (_isRecent now m 604800000 = false →
        (applyDecay cfg now m).weight = max 0 (m.weight - cfg.decayRate) ∧
          0 ≤ (applyDecay cfg now m).weight) ∧
      (_isRecent now m 604800000 = true →
        (applyDecay cfg now m).weight = m.weight) := by
  constructor
  · intro h
    unfold applyDecay
    rw [if_pos (by simp [h])]
    exact ⟨rfl, le_max_left _ _⟩
  · intro h
    unfold applyDecay
    rw [if_neg (not_not_intro h)]

/-- A record of weight `0.5` last accessed 9 days before `now`
(matching the spec's decay scenario). -/
def decaySample : MemoryRecord := mkSample "d" (1/2) 0 0 0 (1/2) (1/2)

/-- C8 witness: the theorem nine days (`777600000` ms) after the record's
last access: decay fires and yields `0.499 = 0.5 - 0.001`. -/
theorem decay_floor_and_window_witness :
    _isRecent 777600000 decaySample 604800000 = false ∧
      (applyDecay {} 777600000 decaySample).weight = 499/1000 := by
  have h : _isRecent 777600000 decaySample 604800000 = false := by
    norm_num [_isRecent, decaySample, mkSample]
  refine ⟨h, ?_⟩
  have h2 := ((decay_floor_and_window {} 777600000 decaySample).1 h).1
  rw [h2]
  norm_num [decaySample, mkSample, max_def]

/-- C9: supplying `0` for `initialWeight`, `emotionalWeight` or
`semanticWeight` at store time yields the defaults `1.0`, `0.5` and `0.5`
instead — `0` is falsy, so `memoryData.field || default` discards it. -/
theorem store_zero_inputs_get_defaults (newId content : String)
    (ty : Option String) (tags : Option (List String)) (now : ℤ) :
    (storeMemory newId now
          { content := content, type := ty, initialWeight := some 0,
            emotionalWeight := some 0, semanticWeight := some 0,
            tags := tags }).weight = 1 ∧
      (storeMemory newId now
          { content := content, type := ty, initialWeight := some 0,
            emotionalWeight := some 0, semanticWeight := some 0,
            tags := tags }).emotionalWeight = 1/2 ∧
      (storeMemory newId now
          { content := content, type := ty, initialWeight := some 0,
            emotionalWeight := some 0, semanticWeight := some 0,
            tags := tags }).semanticWeight = 1/2 := by
  refine ⟨?_, ?_, ?_⟩ <;> simp [storeMemory, jsOrNum]

/-- C10: on an empty population, the weight-distribution branch of the
statistics operation returns average `0` and zero conscious, accessible
and dormant counts — the division by the record count is short-circuited
and never evaluated. -/
theorem empty_population_statistics (cfg : MemoryConfig) :
    averageWeightStat cfg [] = 0 ∧
      (_calculateWeightDistribution cfg []).conscious = 0 ∧
      (_calculateWeightDistribution cfg []).accessible = 0 ∧
      (_calculateWeightDistribution cfg []).dormant = 0 := by
  refine ⟨?_, ?_, ?_, ?_⟩ <;> rfl
